import Mathlib

/-!  Verification of the real-time chat transport hub (internal/chat/ws_hub.go).

The Go source is embedded shallowly:

* wire structs (`Message`, `TypingIndicator`, `ReadReceipt`) become Lean
  structures; the dynamic `Data interface{}` field becomes the inductive
  `MsgData` covering the three shapes the hub actually puts there;
* a `Client`'s buffered `Send` channel (capacity 256) becomes a `List Message`
  bounded by `sendCap`; a channel send that would block (`select`/`default`)
  is a length test against `sendCap`;
* the `Hub`'s `clients` map becomes the list of its entries in iteration
  order; broadcasting is a `filterMap` over that list, mirroring the
  `for … range` loops with their `close`+`delete` branch;
* `readPump`'s per-frame `switch` becomes `processFrame`, which returns the
  trace of externally visible events for one inbound frame; the external
  store's answer to `InsertMessageWithID` is passed in as an `InsertResult`;
* timestamps (`time.Now()`) are abstract `Nat` instants passed in as `now`.
-/

namespace Chat

/-- Typing indicator struct (`TypingIndicator` in ws_hub.go). -/
structure TypingIndicator where
  type : String
  sessionID : String
  userID : String
  isTyping : Bool
  timestamp : Nat
deriving DecidableEq

/-- Read receipt struct (`ReadReceipt` in ws_hub.go). -/
structure ReadReceipt where
  type : String
  sessionID : String
  messageID : String
  readerID : String
  readAt : Nat
deriving DecidableEq

/-- The shapes the hub stores in a `Message`'s dynamic `Data` field:
a `map[string]interface{}{"message_id": …}`, a `TypingIndicator`,
or a `ReadReceipt`. -/
inductive MsgData where
  | messageIdPayload (messageID : String)
  | typing (t : TypingIndicator)
  | receipt (r : ReadReceipt)
deriving DecidableEq

/-- Wire envelope (`Message` in ws_hub.go); `data = none` models `Data: nil`. -/
structure Message where
  type : String
  sessionID : String
  senderID : String
  content : String
  timestamp : Nat
  data : Option MsgData
deriving DecidableEq

/-- One live connection (`Client` in ws_hub.go): identifier, conversation,
participant, and the contents of its bounded outbound `Send` channel.
The physical socket handle is not part of the functional state. -/
structure Client where
  id : String
  sessionID : String
  userID : String
  send : List Message
deriving DecidableEq

/-- Capacity of a client's outbound queue: `make(chan Message, 256)`. -/
def sendCap : Nat := 256

/-- The registry (`Hub` in ws_hub.go): its `clients` map, as the list of
entries in iteration order. -/
structure Hub where
  clients : List Client
deriving DecidableEq

/-- Body of each broadcast loop for one scanned client: if the loop's guard
`cond` holds, try a non-blocking send of envelope `e` (`select` with a
`default` branch); a full queue means the `default` branch runs, which
closes the client's queue and deletes it from the map (`none`).  A client
failing the guard is left untouched. -/
def deliverIf (cond : Client → Bool) (e : Message) (c : Client) : Option Client :=
  if cond c then
    if c.send.length < sendCap then some { c with send := c.send ++ [e] }
    else none
  else some c

/-- `Hub.broadcastMessage`: deliver to every client whose `SessionID` equals
the message's, dropping any such client whose queue is full. -/
def Hub.broadcastMessage (h : Hub) (m : Message) : Hub :=
  ⟨h.clients.filterMap (deliverIf (fun c => c.sessionID == m.sessionID) m)⟩

/-- Ids of the clients whose `Send` queue `Hub.broadcastMessage` closes
(the `default` branch): matching session, queue already full. -/
def Hub.broadcastClosed (h : Hub) (m : Message) : List String :=
  (h.clients.filter
    (fun c => c.sessionID == m.sessionID && !(c.send.length < sendCap))).map Client.id

/-- Envelope wrapped around a typing indicator by `broadcastTypingIndicator`:
`Message{Type: indicator.Type, SessionID: …, Timestamp: …, Data: indicator}`
(the remaining fields keep their zero values). -/
def typingEnvelope (ti : TypingIndicator) : Message :=
  ⟨ti.type, ti.sessionID, "", "", ti.timestamp, some (.typing ti)⟩

/-- `Hub.broadcastTypingIndicator`: deliver the indicator envelope to every
client in the indicator's session whose `UserID` differs from the
indicator's, with the same full-queue drop policy. -/
def Hub.broadcastTypingIndicator (h : Hub) (ti : TypingIndicator) : Hub :=
  ⟨h.clients.filterMap
    (deliverIf (fun c => c.sessionID == ti.sessionID && !(c.userID == ti.userID))
      (typingEnvelope ti))⟩

/-- Envelope wrapped around a read receipt by `broadcastReadReceipt`. -/
def receiptEnvelope (r : ReadReceipt) : Message :=
  ⟨r.type, r.sessionID, "", "", r.readAt, some (.receipt r)⟩

/-- `Hub.broadcastReadReceipt`: deliver the receipt envelope to every client
in the receipt's session whose `UserID` differs from the reader's. -/
def Hub.broadcastReadReceipt (h : Hub) (r : ReadReceipt) : Hub :=
  ⟨h.clients.filterMap
    (deliverIf (fun c => c.sessionID == r.sessionID && !(c.userID == r.readerID))
      (receiptEnvelope r))⟩

/-! ### Basic lemmas about the broadcast loop body -/

theorem deliverIf_of_cond_false {cond : Client → Bool} {e : Message} {c : Client}
    (h : cond c = false) : deliverIf cond e c = some c := by
  simp [deliverIf, h]

theorem deliverIf_of_room {cond : Client → Bool} {e : Message} {c : Client}
    (h : cond c = true) (hr : c.send.length < sendCap) :
    deliverIf cond e c = some { c with send := c.send ++ [e] } := by
  simp [deliverIf, h, hr]

theorem deliverIf_of_full {cond : Client → Bool} {e : Message} {c : Client}
    (h : cond c = true) (hr : ¬ c.send.length < sendCap) :
    deliverIf cond e c = none := by
  simp [deliverIf, h, hr]

/-- Delivery never changes a client's identity fields, only its queue. -/
theorem deliverIf_ids {cond : Client → Bool} {e : Message} {c c' : Client}
    (h : deliverIf cond e c = some c') :
    c'.id = c.id ∧ c'.sessionID = c.sessionID ∧ c'.userID = c.userID := by
  unfold deliverIf at h
  by_cases hc : cond c = true
  · by_cases hr : c.send.length < sendCap
    · simp [hc, hr] at h
      subst h; exact ⟨rfl, rfl, rfl⟩
    · simp [hc, hr] at h
  · simp [hc] at h
    subst h; exact ⟨rfl, rfl, rfl⟩

/-- Scanning a list with a loop body that leaves every `p`-client untouched
and never moves a client into or out of `p` leaves the `p`-sublist exactly
as it was. -/
theorem filter_filterMap_eq (f : Client → Option Client) (p : Client → Bool)
    (hf : ∀ c, p c = true → f c = some c)
    (hp : ∀ c c', f c = some c' → p c' = p c) :
    ∀ l : List Client, (l.filterMap f).filter p = l.filter p := by
  intro l
  induction l with
  | nil => rfl
  | cons c l ih =>
    cases hpc : p c with
    | true =>
      have hfc : f c = some c := hf c hpc
      simp [List.filterMap_cons, hfc, List.filter_cons, hpc, ih]
    | false =>
      cases hfc : f c with
      | none =>
        simp [List.filterMap_cons, hfc, List.filter_cons, hpc, ih]
      | some c' =>
        have hpc' : p c' = false := (hp c c' hfc).trans hpc
        simp [List.filterMap_cons, hfc, List.filter_cons, hpc, hpc', ih]

/-- Claim C1: for every hub state and every broadcast envelope — a chat
message, a typing indicator, or a read receipt — the registry delivers the
envelope only within its conversation: the sublist of clients registered
under any other `sessionID` is left exactly as it was (same records, same
outbound queues), so a broadcast on one conversation is never placed on the
queue of a connection registered under another. -/
theorem broadcast_session_isolation (h : Hub) (m : Message) (ti : TypingIndicator)
    (r : ReadReceipt) :
    ((h.broadcastMessage m).clients.filter (fun c => !(c.sessionID == m.sessionID))
        = h.clients.filter (fun c => !(c.sessionID == m.sessionID)))
    ∧ ((h.broadcastTypingIndicator ti).clients.filter
          (fun c => !(c.sessionID == ti.sessionID))
        = h.clients.filter (fun c => !(c.sessionID == ti.sessionID)))
    ∧ ((h.broadcastReadReceipt r).clients.filter
          (fun c => !(c.sessionID == r.sessionID))
        = h.clients.filter (fun c => !(c.sessionID == r.sessionID))) := by
  refine ⟨?_, ?_, ?_⟩
  · apply filter_filterMap_eq
    · intro c hc
      apply deliverIf_of_cond_false
      simpa using hc
    · intro c c' hcc
      have := (deliverIf_ids hcc).2.1
      simp [this]
  · apply filter_filterMap_eq
    · intro c hc
      apply deliverIf_of_cond_false
      simp at hc
      simp [hc]
    · intro c c' hcc
      have := (deliverIf_ids hcc).2.1
      simp [this]
  · apply filter_filterMap_eq
    · intro c hc
      apply deliverIf_of_cond_false
      simp at hc
      simp [hc]
    · intro c c' hcc
      have := (deliverIf_ids hcc).2.1
      simp [this]

/-! ### readPump: processing one inbound frame -/

/-- Result of `Service.InsertMessageWithID` as seen by `readPump`: either the
new message's id, or an error.  The store is an external collaborator, so
its answer is a parameter of the frame-processing function. -/
inductive InsertResult where
  | ok (messageID : String)
  | fail (msg : String)
deriving DecidableEq

/-- Externally visible actions of `readPump`'s per-frame `switch`, in program
order.  `errorFrameToSender` and `unregisterSelf` never occur in any branch
of the source; they are listed so their absence is expressible. -/
inductive Event where
  | timerReset
  | persistAttempt (sessionID senderType senderID content : String)
  | logError (msg : String)
  | typingBroadcast (ti : TypingIndicator)
  | messageBroadcast (m : Message)
  | receiptBroadcast (r : ReadReceipt)
  | errorFrameToSender (m : Message)
  | unregisterSelf
deriving DecidableEq

/-- Whether an event submits an envelope for broadcast. -/
def Event.isBroadcast : Event → Bool
  | .typingBroadcast _ => true
  | .messageBroadcast _ => true
  | .receiptBroadcast _ => true
  | _ => false

/-- One iteration of `Hub.readPump`'s frame loop for client `client` on
inbound frame `msg`, given answer `ins` from the store and current instant
`now`.  Mirrors the source: the typing idle timer is reset on every frame,
then the frame is dispatched on its `Type`:

* `"MESSAGE"` with non-empty content: call
  `InsertMessageWithID(ctx, client.SessionID, "USER", client.UserID, msg.Content)`;
  on error, log it and `continue` (nothing else happens); on success,
  broadcast a `TYPING_STOPPED` indicator and then the message envelope
  carrying the new id in its data payload;
* `"TYPING_STARTED"` / `"TYPING_STOPPED"`: broadcast the indicator;
* `"READ_RECEIPT"`: only when the data payload is a map carrying a string
  `message_id`, broadcast a receipt with the reader's id;
* anything else: no action. -/
def processFrame (client : Client) (msg : Message) (ins : InsertResult)
    (now : Nat) : List Event :=
  .timerReset ::
    (if msg.type == "MESSAGE" then
      if msg.content == "" then []
      else
        .persistAttempt client.sessionID "USER" client.userID msg.content ::
          (match ins with
           | .fail e => [.logError e]
           | .ok messageID =>
             [.typingBroadcast ⟨"TYPING_STOPPED", client.sessionID, client.userID,
                false, now⟩,
              .messageBroadcast ⟨"MESSAGE", client.sessionID, client.userID,
                msg.content, now, some (.messageIdPayload messageID)⟩])
    else if msg.type == "TYPING_STARTED" then
      [.typingBroadcast ⟨"TYPING_STARTED", client.sessionID, client.userID, true, now⟩]
    else if msg.type == "TYPING_STOPPED" then
      [.typingBroadcast ⟨"TYPING_STOPPED", client.sessionID, client.userID, false, now⟩]
    else if msg.type == "READ_RECEIPT" then
      match msg.data with
      | some (.messageIdPayload mid) =>
        [.receiptBroadcast ⟨"READ_RECEIPT", client.sessionID, mid, client.userID, now⟩]
      | _ => []
    else [])

/-- Claim C2: for an inbound `MESSAGE` with non-empty content, the persist
call precedes every broadcast in the frame's event trace; and when the store
answers with an error the whole trace is exactly timer-reset, persist
attempt, log — so nothing is broadcast, no error frame goes back to the
sender, and the connection is neither unregistered nor abandoned (the loop
continues with the next frame). -/
theorem message_persist_before_broadcast (client : Client) (msg : Message)
    (ins : InsertResult) (now : Nat)
    (ht : msg.type = "MESSAGE") (hc : msg.content ≠ "") :
    (∃ post, processFrame client msg ins now
        = .timerReset ::
            .persistAttempt client.sessionID "USER" client.userID msg.content :: post)
    ∧ (∀ e, ins = .fail e →
        processFrame client msg ins now
          = [.timerReset,
             .persistAttempt client.sessionID "USER" client.userID msg.content,
             .logError e]) := by
  constructor
  · cases ins with
    | ok mid =>
      exact ⟨[.typingBroadcast ⟨"TYPING_STOPPED", client.sessionID, client.userID,
                false, now⟩,
              .messageBroadcast ⟨"MESSAGE", client.sessionID, client.userID,
                msg.content, now, some (.messageIdPayload mid)⟩],
        by simp [processFrame, ht, hc]⟩
    | fail e => exact ⟨[.logError e], by simp [processFrame, ht, hc]⟩
  · intro e he
    subst he
    simp [processFrame, ht, hc]

/-- Witness for C2 at a concrete input: client `u1` on session `s1` sends
`"hi"` and the store fails; the trace is exactly reset, persist, log. -/
theorem message_persist_before_broadcast_witness :
    (∃ post, processFrame ⟨"c1", "s1", "u1", []⟩
        ⟨"MESSAGE", "s1", "u1", "hi", 0, none⟩ (.fail "db down") 7
        = .timerReset :: .persistAttempt "s1" "USER" "u1" "hi" :: post)
    ∧ (∀ e, (InsertResult.fail "db down" : InsertResult) = .fail e →
        processFrame ⟨"c1", "s1", "u1", []⟩
          ⟨"MESSAGE", "s1", "u1", "hi", 0, none⟩ (.fail "db down") 7
          = [.timerReset, .persistAttempt "s1" "USER" "u1" "hi", .logError e]) :=
  message_persist_before_broadcast ⟨"c1", "s1", "u1", []⟩
    ⟨"MESSAGE", "s1", "u1", "hi", 0, none⟩ (.fail "db down") 7
    (by decide) (by decide)

/-- Claim C9: an inbound `MESSAGE` frame whose content is the empty string is
ignored: the frame's event trace is exactly the idle-timer reset that every
inbound frame performs — no persist, no broadcast of any kind, no error
frame, no unregistration. -/
theorem empty_message_ignored (client : Client) (msg : Message)
    (ins : InsertResult) (now : Nat)
    (ht : msg.type = "MESSAGE") (hc : msg.content = "") :
    processFrame client msg ins now = [.timerReset] := by
  simp [processFrame, ht, hc]

/-- Witness for C9 at a concrete input: an empty `MESSAGE` yields only the
timer reset. -/
theorem empty_message_ignored_witness :
    processFrame ⟨"c1", "s1", "u1", []⟩ ⟨"MESSAGE", "s1", "u1", "", 3, none⟩
      (.ok "m9") 4 = [.timerReset] :=
  empty_message_ignored ⟨"c1", "s1", "u1", []⟩ ⟨"MESSAGE", "s1", "u1", "", 3, none⟩
    (.ok "m9") 4 (by decide) (by decide)

/-! ### Delivery membership helpers -/

theorem mem_broadcast_of_room {cond : Client → Bool} {e : Message}
    {l : List Client} {c : Client} (hc : c ∈ l) (hcond : cond c = true)
    (hr : c.send.length < sendCap) :
    { c with send := c.send ++ [e] } ∈ l.filterMap (deliverIf cond e) :=
  List.mem_filterMap.mpr ⟨c, hc, deliverIf_of_room hcond hr⟩

theorem mem_broadcast_of_cond_false {cond : Client → Bool} {e : Message}
    {l : List Client} {c : Client} (hc : c ∈ l) (hcond : cond c = false) :
    c ∈ l.filterMap (deliverIf cond e) :=
  List.mem_filterMap.mpr ⟨c, hc, deliverIf_of_cond_false hcond⟩

/-- A client present after the scan whose user the loop's guard always
rejects was already present, unchanged, before the scan. -/
theorem mem_of_mem_broadcast_cond_false {cond : Client → Bool} {e : Message}
    {l : List Client} {c' : Client} (h : c' ∈ l.filterMap (deliverIf cond e))
    (hcf : ∀ a ∈ l, a.userID = c'.userID → cond a = false) : c' ∈ l := by
  obtain ⟨a, ha, hfa⟩ := List.mem_filterMap.mp h
  have hid : c'.userID = a.userID := (deliverIf_ids hfa).2.2
  rw [deliverIf_of_cond_false (hcf a ha hid.symm)] at hfa
  cases hfa
  exact ha

/-- Claim C6: an inbound `TYPING_STARTED` frame from participant P produces
exactly a broadcast of a `TYPING_STARTED` indicator for P's session; the
registry then delivers the indicator envelope to every connection of the
session whose user differs from P and whose queue has room, leaves every
connection of P's user untouched, and after the broadcast every connection
carrying P's user id is one that was already registered unchanged — the
indicator is never delivered back to P's own connection. -/
theorem typing_started_excludes_sender (h : Hub) (client : Client) (msg : Message)
    (ins : InsertResult) (now : Nat) (ht : msg.type = "TYPING_STARTED") :
    (processFrame client msg ins now
      = [.timerReset,
         .typingBroadcast ⟨"TYPING_STARTED", client.sessionID, client.userID, true, now⟩])
    ∧ (∀ c ∈ h.clients, c.sessionID = client.sessionID → c.userID ≠ client.userID →
        c.send.length < sendCap →
        { c with send := c.send ++
            [typingEnvelope ⟨"TYPING_STARTED", client.sessionID, client.userID, true, now⟩] }
          ∈ (h.broadcastTypingIndicator
              ⟨"TYPING_STARTED", client.sessionID, client.userID, true, now⟩).clients)
    ∧ (∀ c ∈ h.clients, c.userID = client.userID →
        c ∈ (h.broadcastTypingIndicator
              ⟨"TYPING_STARTED", client.sessionID, client.userID, true, now⟩).clients)
    ∧ (∀ c' ∈ (h.broadcastTypingIndicator
              ⟨"TYPING_STARTED", client.sessionID, client.userID, true, now⟩).clients,
        c'.userID = client.userID → c' ∈ h.clients) := by
  refine ⟨by simp [processFrame, ht], ?_, ?_, ?_⟩
  · intro c hc hs hu hr
    exact mem_broadcast_of_room hc (by simp [hs, hu]) hr
  · intro c hc hu
    exact mem_broadcast_of_cond_false hc (by simp [hu])
  · intro c' hc' hu
    refine mem_of_mem_broadcast_cond_false hc' ?_
    intro a _ ha
    simp [ha, hu]

/-- Witness for C6: participants `uA`, `uB` share session `s1`; `uA` sends
`TYPING_STARTED`; `uB`'s connection receives the indicator envelope and
`uA`'s own connection stays untouched. -/
theorem typing_started_excludes_sender_witness :
    (processFrame ⟨"cA", "s1", "uA", []⟩ ⟨"TYPING_STARTED", "s1", "uA", "", 0, none⟩
        (.ok "x") 5
      = [.timerReset, .typingBroadcast ⟨"TYPING_STARTED", "s1", "uA", true, 5⟩])
    ∧ (⟨"cB", "s1", "uB", [typingEnvelope ⟨"TYPING_STARTED", "s1", "uA", true, 5⟩]⟩ : Client)
        ∈ ((Hub.mk [⟨"cA", "s1", "uA", []⟩, ⟨"cB", "s1", "uB", []⟩]).broadcastTypingIndicator
            ⟨"TYPING_STARTED", "s1", "uA", true, 5⟩).clients
    ∧ (⟨"cA", "s1", "uA", []⟩ : Client)
        ∈ ((Hub.mk [⟨"cA", "s1", "uA", []⟩, ⟨"cB", "s1", "uB", []⟩]).broadcastTypingIndicator
            ⟨"TYPING_STARTED", "s1", "uA", true, 5⟩).clients := by
  have H := typing_started_excludes_sender
    (Hub.mk [⟨"cA", "s1", "uA", []⟩, ⟨"cB", "s1", "uB", []⟩])
    ⟨"cA", "s1", "uA", []⟩ ⟨"TYPING_STARTED", "s1", "uA", "", 0, none⟩
    (.ok "x") 5 (by decide)
  refine ⟨H.1, ?_, H.2.2.1 ⟨"cA", "s1", "uA", []⟩ (by decide) (by decide)⟩
  exact H.2.1 ⟨"cB", "s1", "uB", []⟩ (by decide) (by decide) (by decide) (by decide)

/-- Claim C7: an inbound `READ_RECEIPT` frame from reader A whose payload
carries `message_id = m` produces exactly a broadcast of a `READ_RECEIPT`
carrying reader id A and message id m; the registry delivers the receipt
envelope to every connection of the session whose user differs from A and
whose queue has room, leaves every connection of A's user untouched, and
after the broadcast every connection carrying A's user id was already
registered unchanged — the receipt is never echoed back to A. -/
theorem read_receipt_excludes_reader (h : Hub) (client : Client) (msg : Message)
    (ins : InsertResult) (now : Nat) (mid : String)
    (ht : msg.type = "READ_RECEIPT") (hd : msg.data = some (.messageIdPayload mid)) :
    (processFrame client msg ins now
      = [.timerReset,
         .receiptBroadcast ⟨"READ_RECEIPT", client.sessionID, mid, client.userID, now⟩])
    ∧ (∀ c ∈ h.clients, c.sessionID = client.sessionID → c.userID ≠ client.userID →
        c.send.length < sendCap →
        { c with send := c.send ++
            [receiptEnvelope ⟨"READ_RECEIPT", client.sessionID, mid, client.userID, now⟩] }
          ∈ (h.broadcastReadReceipt
              ⟨"READ_RECEIPT", client.sessionID, mid, client.userID, now⟩).clients)
    ∧ (∀ c ∈ h.clients, c.userID = client.userID →
        c ∈ (h.broadcastReadReceipt
              ⟨"READ_RECEIPT", client.sessionID, mid, client.userID, now⟩).clients)
    ∧ (∀ c' ∈ (h.broadcastReadReceipt
              ⟨"READ_RECEIPT", client.sessionID, mid, client.userID, now⟩).clients,
        c'.userID = client.userID → c' ∈ h.clients) := by
  refine ⟨by simp [processFrame, ht, hd], ?_, ?_, ?_⟩
  · intro c hc hs hu hr
    exact mem_broadcast_of_room hc (by simp [hs, hu]) hr
  · intro c hc hu
    exact mem_broadcast_of_cond_false hc (by simp [hu])
  · intro c' hc' hu
    refine mem_of_mem_broadcast_cond_false hc' ?_
    intro a _ ha
    simp [ha, hu]

/-- Witness for C7: reader `uA` acknowledges message `m1` on session `s1`;
`uB`'s connection receives the receipt envelope carrying `reader_id = uA`
and `message_id = m1`; `uA`'s own connection stays untouched. -/
theorem read_receipt_excludes_reader_witness :
    (processFrame ⟨"cA", "s1", "uA", []⟩
        ⟨"READ_RECEIPT", "s1", "uA", "", 0, some (.messageIdPayload "m1")⟩ (.ok "x") 9
      = [.timerReset, .receiptBroadcast ⟨"READ_RECEIPT", "s1", "m1", "uA", 9⟩])
    ∧ (⟨"cB", "s1", "uB", [receiptEnvelope ⟨"READ_RECEIPT", "s1", "m1", "uA", 9⟩]⟩ : Client)
        ∈ ((Hub.mk [⟨"cA", "s1", "uA", []⟩, ⟨"cB", "s1", "uB", []⟩]).broadcastReadReceipt
            ⟨"READ_RECEIPT", "s1", "m1", "uA", 9⟩).clients
    ∧ (⟨"cA", "s1", "uA", []⟩ : Client)
        ∈ ((Hub.mk [⟨"cA", "s1", "uA", []⟩, ⟨"cB", "s1", "uB", []⟩]).broadcastReadReceipt
            ⟨"READ_RECEIPT", "s1", "m1", "uA", 9⟩).clients := by
  have H := read_receipt_excludes_reader
    (Hub.mk [⟨"cA", "s1", "uA", []⟩, ⟨"cB", "s1", "uB", []⟩])
    ⟨"cA", "s1", "uA", []⟩
    ⟨"READ_RECEIPT", "s1", "uA", "", 0, some (.messageIdPayload "m1")⟩
    (.ok "x") 9 "m1" (by decide) (by decide)
  refine ⟨H.1, ?_, H.2.2.1 ⟨"cA", "s1", "uA", []⟩ (by decide) (by decide)⟩
  exact H.2.1 ⟨"cB", "s1", "uB", []⟩ (by decide) (by decide) (by decide) (by decide)

/-! ### Backpressure -/

/-- Claim C3: when a broadcast meets a target whose bounded queue is full,
the registry never blocks: the `default` branch closes that connection's
queue (`broadcastClosed` lists it) and the connection is gone from the
membership set in the very state the broadcast produces; every other
connection of the conversation with room still receives this broadcast,
and keeps receiving subsequent ones. -/
theorem backpressure_drops_only_slow (h : Hub) (m m2 : Message) (cfull d : Client)
    (hnd : (h.clients.map Client.id).Nodup)
    (hcf : cfull ∈ h.clients) (hcs : cfull.sessionID = m.sessionID)
    (hfull : sendCap ≤ cfull.send.length)
    (hd : d ∈ h.clients) (hds : d.sessionID = m.sessionID)
    (hroom : d.send.length + 1 < sendCap)
    (hm2 : m2.sessionID = m.sessionID) :
    cfull.id ∈ h.broadcastClosed m
    ∧ (∀ c' ∈ (h.broadcastMessage m).clients, c'.id ≠ cfull.id)
    ∧ { d with send := d.send ++ [m] } ∈ (h.broadcastMessage m).clients
    ∧ { d with send := d.send ++ [m, m2] }
        ∈ ((h.broadcastMessage m).broadcastMessage m2).clients := by
  have hnotlt : ¬ cfull.send.length < sendCap := Nat.not_lt.mpr hfull
  have hdroom : d.send.length < sendCap := Nat.lt_of_succ_lt hroom
  have hmem1 : { d with send := d.send ++ [m] } ∈ (h.broadcastMessage m).clients :=
    mem_broadcast_of_room hd (by simp [hds]) hdroom
  refine ⟨?_, ?_, hmem1, ?_⟩
  · exact List.mem_map_of_mem Client.id
      (List.mem_filter.mpr ⟨hcf, by simp [hcs, hnotlt]⟩)
  · intro c' hc' heq
    obtain ⟨a, ha, hfa⟩ := List.mem_filterMap.mp hc'
    have haid : a.id = cfull.id := (deliverIf_ids hfa).1.symm.trans heq
    have : a = cfull := List.inj_on_of_nodup_map hnd ha hcf haid
    subst this
    rw [deliverIf_of_full (by simp [hcs]) hnotlt] at hfa
    cases hfa
  · have hstep : d.send ++ [m, m2] = (d.send ++ [m]) ++ [m2] := by simp
    rw [hstep]
    show { d with send := (d.send ++ [m]) ++ [m2] }
      ∈ (h.broadcastMessage m).clients.filterMap
          (deliverIf (fun c => c.sessionID == m2.sessionID) m2)
    exact mem_broadcast_of_room hmem1 (by simp [hds, hm2]) (by simpa using hroom)

/-- Witness for C3: `cF`'s queue holds `sendCap` pending envelopes; a
broadcast on its session closes and removes it while `cD` receives that
broadcast and the next one. -/
theorem backpressure_drops_only_slow_witness :
    "cF" ∈ (Hub.mk [⟨"cF", "s1", "uF",
        List.replicate sendCap ⟨"MESSAGE", "s1", "u0", "x", 0, none⟩⟩,
        ⟨"cD", "s1", "uD", []⟩]).broadcastClosed ⟨"MESSAGE", "s1", "uA", "hi", 1, none⟩
    ∧ (⟨"cD", "s1", "uD", [⟨"MESSAGE", "s1", "uA", "hi", 1, none⟩]⟩ : Client)
        ∈ ((Hub.mk [⟨"cF", "s1", "uF",
            List.replicate sendCap ⟨"MESSAGE", "s1", "u0", "x", 0, none⟩⟩,
            ⟨"cD", "s1", "uD", []⟩]).broadcastMessage
              ⟨"MESSAGE", "s1", "uA", "hi", 1, none⟩).clients
    ∧ (⟨"cD", "s1", "uD", [⟨"MESSAGE", "s1", "uA", "hi", 1, none⟩,
          ⟨"MESSAGE", "s1", "uB", "yo", 2, none⟩]⟩ : Client)
        ∈ (((Hub.mk [⟨"cF", "s1", "uF",
            List.replicate sendCap ⟨"MESSAGE", "s1", "u0", "x", 0, none⟩⟩,
            ⟨"cD", "s1", "uD", []⟩]).broadcastMessage
              ⟨"MESSAGE", "s1", "uA", "hi", 1, none⟩).broadcastMessage
              ⟨"MESSAGE", "s1", "uB", "yo", 2, none⟩).clients := by
  have H := backpressure_drops_only_slow
    (Hub.mk [⟨"cF", "s1", "uF",
        List.replicate sendCap ⟨"MESSAGE", "s1", "u0", "x", 0, none⟩⟩,
      ⟨"cD", "s1", "uD", []⟩])
    ⟨"MESSAGE", "s1", "uA", "hi", 1, none⟩ ⟨"MESSAGE", "s1", "uB", "yo", 2, none⟩
    ⟨"cF", "s1", "uF", List.replicate sendCap ⟨"MESSAGE", "s1", "u0", "x", 0, none⟩⟩
    ⟨"cD", "s1", "uD", []⟩
    (by decide) (List.mem_cons_self _ _) rfl (by simp)
    (List.mem_cons_of_mem _ (List.mem_cons_self _ _)) rfl (by decide) rfl
  exact ⟨H.1, H.2.2.1, H.2.2.2⟩

/-! ### Base registry event-loop commands -/

/-- `Hub.registerClient`: `h.clients[client.ID] = client` — a keyed map
insert (replace the entry if the id is present, otherwise add it). -/
def Hub.registerClient (h : Hub) (c : Client) : Hub :=
  if h.clients.any (fun x => x.id == c.id) then
    ⟨h.clients.map (fun x => if x.id == c.id then c else x)⟩
  else ⟨h.clients ++ [c]⟩

/-- `Hub.unregisterClient`: if the id is present, delete the entry (the
entry's queue is closed as it leaves the map). -/
def Hub.unregisterClient (h : Hub) (c : Client) : Hub :=
  if h.clients.any (fun x => x.id == c.id) then
    ⟨h.clients.filter (fun x => !(x.id == c.id))⟩
  else h

/-- The three command kinds `Hub.Run`'s `select` consumes. -/
inductive HubCommand where
  | register (c : Client)
  | unregister (c : Client)
  | broadcast (m : Message)
deriving DecidableEq

/-- One command processed by the base `Hub.Run` loop. -/
def Hub.runStep (h : Hub) : HubCommand → Hub
  | .register c => h.registerClient c
  | .unregister c => h.unregisterClient c
  | .broadcast m => h.broadcastMessage m

/-! ### Enhanced (metrics-aware) registry -/

/-- `HubMetrics` counters (the mutex is synchronization, not state). -/
structure HubMetrics where
  totalConnections : Int
  activeConnections : Int
  messagesSent : Int
  messagesReceived : Int
  disconnections : Int
  lastConnectionTime : Nat
deriving DecidableEq

/-- `EnhancedHub`: the embedded base `Hub` plus metrics and limits. -/
structure EnhancedHub where
  hub : Hub
  metrics : HubMetrics
  connectionLimit : Nat
  activeConnections : Int
  maxConnections : Nat
deriving DecidableEq

/-- `NewEnhancedHub`: fresh base hub, zero metrics, limits of 1000. -/
def newEnhancedHub : EnhancedHub :=
  ⟨⟨[]⟩, ⟨0, 0, 0, 0, 0, 0⟩, 1000, 0, 1000⟩

/-- `EnhancedHub.registerClient`: reject at the connection limit; otherwise
insert, bump the internal counter, and update `TotalConnections`,
`ActiveConnections`, `LastConnectionTime` (`now` stands for `time.Now()`). -/
def EnhancedHub.registerClient (eh : EnhancedHub) (c : Client) (now : Nat) :
    EnhancedHub :=
  if eh.hub.clients.length ≥ eh.connectionLimit then eh
  else
    { eh with
      hub := eh.hub.registerClient c
      activeConnections := eh.activeConnections + 1
      metrics := { eh.metrics with
        totalConnections := eh.metrics.totalConnections + 1
        activeConnections := eh.activeConnections + 1
        lastConnectionTime := now } }

/-- `EnhancedHub.unregisterClient`: if present, delete, decrement the
internal counter, and update `ActiveConnections` and `Disconnections`. -/
def EnhancedHub.unregisterClient (eh : EnhancedHub) (c : Client) : EnhancedHub :=
  if eh.hub.clients.any (fun x => x.id == c.id) then
    { eh with
      hub := ⟨eh.hub.clients.filter (fun x => !(x.id == c.id))⟩
      activeConnections := eh.activeConnections - 1
      metrics := { eh.metrics with
        activeConnections := eh.activeConnections - 1
        disconnections := eh.metrics.disconnections + 1 } }
  else eh

/-- `EnhancedHub.broadcastMessage`: same delivery as the base loop, bumping
`MessagesSent` once per successful (non-dropped) delivery. -/
def EnhancedHub.broadcastMessage (eh : EnhancedHub) (m : Message) : EnhancedHub :=
  { eh with
    hub := eh.hub.broadcastMessage m
    metrics := { eh.metrics with
      messagesSent := eh.metrics.messagesSent +
        (eh.hub.clients.filter
          (fun c => c.sessionID == m.sessionID && c.send.length < sendCap)).length } }

/-- One command processed by the loop an `EnhancedHub` actually runs.
`Run` is declared on the embedded base `*Hub` and promoted; Go method
calls inside it (`h.registerClient` …) are resolved statically against
`*Hub`, so the loop invokes the base methods on the embedded hub and the
`EnhancedHub` fields — metrics included — are untouched. -/
def EnhancedHub.runStep (eh : EnhancedHub) (cmd : HubCommand) : EnhancedHub :=
  { eh with hub := eh.hub.runStep cmd }

/-- Claim C5 (failing-input evaluation): commands processed through the
promoted event loop never move the metrics — a register processed by the
loop inserts the client yet leaves `TotalConnections` at 0, while the
metrics-aware `EnhancedHub.registerClient`, invoked directly, would set it
to 1.  The claim's accounting therefore fails through the loop. -/
theorem enhanced_loop_bypasses_metrics :
    (∀ (eh : EnhancedHub) (cmd : HubCommand), (eh.runStep cmd).metrics = eh.metrics)
    ∧ (newEnhancedHub.runStep (.register ⟨"c1", "s1", "u1", []⟩)).hub.clients.length = 1
    ∧ (newEnhancedHub.runStep (.register ⟨"c1", "s1", "u1", []⟩)).metrics.totalConnections
        = 0
    ∧ (newEnhancedHub.registerClient ⟨"c1", "s1", "u1", []⟩ 3).metrics.totalConnections
        = 1 := by
  refine ⟨fun eh cmd => rfl, ?_, ?_, ?_⟩ <;> decide

/-! ### Graceful shutdown -/

/-- The per-connection effects `EnhancedHub.Shutdown` performs:
`close(client.Send)` and `client.Conn.Close()`. -/
inductive ShutdownAction where
  | closeSend (clientID : String)
  | closeConn (clientID : String)
deriving DecidableEq

/-- `EnhancedHub.Shutdown`: close every client's queue and socket, clear the
membership map, zero the internal `activeConnections` counter.  The
`metrics` record is not touched by the source.  Returns the new state and
the list of close effects, in scan order. -/
def EnhancedHub.shutdown (eh : EnhancedHub) : EnhancedHub × List ShutdownAction :=
  ({ eh with hub := ⟨[]⟩, activeConnections := 0 },
   eh.hub.clients.flatMap (fun c => [.closeSend c.id, .closeConn c.id]))

/-- Counterexample to claim C8 as stated: start from the reachable state in
which the metrics-aware register ran once (`ActiveConnections = 1`); after
`Shutdown` the metrics' `ActiveConnections` is still 1, not 0 — `Shutdown`
zeroes only the registry's internal counter. -/
theorem shutdown_keeps_metrics_active_counter :
    ((newEnhancedHub.registerClient ⟨"c1", "s1", "u1", []⟩ 5).shutdown).1.metrics.activeConnections
        = 1
    ∧ ((newEnhancedHub.registerClient ⟨"c1", "s1", "u1", []⟩ 5).shutdown).1.metrics.activeConnections
        ≠ 0 := by
  constructor <;> decide

/-- Claim C8 as amended: after `Shutdown`, every previously registered
connection has had its outbound queue closed and its socket closed, the
membership set is empty, and the registry's internal active-connection
counter is zero; the metrics record — its `ActiveConnections` included —
is left exactly as it was. -/
theorem shutdown_closes_clears_counter (eh : EnhancedHub) :
    (∀ c ∈ eh.hub.clients,
      ShutdownAction.closeSend c.id ∈ eh.shutdown.2
      ∧ ShutdownAction.closeConn c.id ∈ eh.shutdown.2)
    ∧ eh.shutdown.1.hub.clients = []
    ∧ eh.shutdown.1.activeConnections = 0
    ∧ eh.shutdown.1.metrics = eh.metrics := by
  refine ⟨?_, rfl, rfl, rfl⟩
  intro c hc
  constructor
  · exact List.mem_flatMap.mpr ⟨c, hc, by simp⟩
  · exact List.mem_flatMap.mpr ⟨c, hc, by simp⟩

/-- Witness for the amended C8 at a concrete state holding one client. -/
theorem shutdown_closes_clears_counter_witness :
    ShutdownAction.closeSend "c1"
        ∈ ((newEnhancedHub.registerClient ⟨"c1", "s1", "u1", []⟩ 5).shutdown).2
    ∧ ShutdownAction.closeConn "c1"
        ∈ ((newEnhancedHub.registerClient ⟨"c1", "s1", "u1", []⟩ 5).shutdown).2
    ∧ ((newEnhancedHub.registerClient ⟨"c1", "s1", "u1", []⟩ 5).shutdown).1.hub.clients
        = []
    ∧ ((newEnhancedHub.registerClient ⟨"c1", "s1", "u1", []⟩ 5).shutdown).1.activeConnections
        = 0 := by
  have H := shutdown_closes_clears_counter
    (newEnhancedHub.registerClient ⟨"c1", "s1", "u1", []⟩ 5)
  have hc := H.1 ⟨"c1", "s1", "u1", []⟩ (by decide)
  exact ⟨hc.1, hc.2, H.2.1, H.2.2.1⟩

/-! ### HubManager sharding -/

/-- `HubManager`: its `map[string]*EnhancedHub` of shards, as the list of
(id, shard) entries in one iteration order of the map.  Go map iteration
order is unspecified, so the same manager may present its entries in any
order; the string key stands for the shard instance's identity (the
pointer in Go). -/
structure HubManager where
  hubs : List (String × EnhancedHub)
deriving DecidableEq

/-- `HubManager.GetHub`: `hash := len(sessionID) % len(hm.hubs)` — a modulus
by zero (run-time panic, modelled as `none`) when the manager holds no
shard; otherwise walk the map's iteration order counting up to `hash`, and
fall back to the first entry of the iteration if the walk produced
nothing. -/
def HubManager.GetHub (hm : HubManager) (sessionID : String) :
    Option (String × EnhancedHub) :=
  if hm.hubs.isEmpty then none
  else
    match hm.hubs.get? (sessionID.length % hm.hubs.length) with
    | some hub => some hub
    | none => hm.hubs.head?

/-- Counterexample to claim C4 as stated: the same two-shard map, presented
in its two possible iteration orders, routes the same `sessionID` to two
different shards — shard selection iterates the unordered shard collection,
so it is not deterministic across calls. -/
theorem getHub_iteration_order_dependent :
    (HubManager.mk [("h1", newEnhancedHub), ("h2", newEnhancedHub)]).GetHub "a"
      ≠ (HubManager.mk [("h2", newEnhancedHub), ("h1", newEnhancedHub)]).GetHub "a"
    ∧ ([("h1", newEnhancedHub), ("h2", newEnhancedHub)]
        : List (String × EnhancedHub)).Perm
        [("h2", newEnhancedHub), ("h1", newEnhancedHub)] :=
  ⟨by decide, List.Perm.swap _ _ _⟩

/-- Claim C10: with zero shards `GetHub` hits a modulus by zero (a run-time
panic, the `none` of the model); with at least one shard it always returns
some registered shard, for every `sessionID`. -/
theorem getHub_empty_panics_nonempty_total (hm : HubManager) (sid : String) :
    (hm.hubs = [] → hm.GetHub sid = none)
    ∧ (hm.hubs ≠ [] → ∃ e, hm.GetHub sid = some e ∧ e ∈ hm.hubs) := by
  constructor
  · intro h
    simp [HubManager.GetHub, h]
  · intro h
    have hpos : 0 < hm.hubs.length := List.length_pos.mpr h
    have hlt : sid.length % hm.hubs.length < hm.hubs.length := Nat.mod_lt _ hpos
    refine ⟨hm.hubs.get ⟨sid.length % hm.hubs.length, hlt⟩, ?_, List.get_mem _ _ _⟩
    have hne : hm.hubs.isEmpty = false := by
      cases hh : hm.hubs with
      | nil => exact absurd hh h
      | cons a l => rfl
    simp [HubManager.GetHub, hne, List.getElem?_eq_getElem hlt]

/-- Witness for C10: the empty manager "panics"; a one-shard manager routes
every session to that shard. -/
theorem getHub_empty_panics_nonempty_total_witness :
    ((HubManager.mk []).GetHub "s7" = none)
    ∧ (∃ e, (HubManager.mk [("h1", newEnhancedHub)]).GetHub "s7" = some e
        ∧ e ∈ (HubManager.mk [("h1", newEnhancedHub)]).hubs) :=
  ⟨(getHub_empty_panics_nonempty_total (HubManager.mk []) "s7").1 rfl,
   (getHub_empty_panics_nonempty_total (HubManager.mk [("h1", newEnhancedHub)]) "s7").2
     (by decide)⟩

end Chat
